import Mathlib

/-!
Verification of the request-to-artifact orchestration layer of the media
retrieval service (`src/app.py`).

The embedding models the four route handlers (`/song` POST, `/song` GET,
`/video` POST, `/video` GET), the filename rewriting applied to the engine's
predicted output path, the DIRECT-mode size gate, the shutdown cleanup loop,
and the `try`/`except` structure of each handler.  The external extraction
engine (`yt_dlp`) is an oracle parameter: it consumes a URL and the handler's
option dictionary, transforms the filesystem (downloading the artifact), and
yields the predicted output path or an exception.  The filesystem is a finite
association list from paths to byte sizes.
-/

namespace Pydl

/-- Python's `str.replace` on character lists, fuel-indexed so it is
structurally recursive: scan left to right, and at each position replace a
non-overlapping occurrence of `pat` by `rep`.  The fuel is always instantiated
with the length of the scanned list, which suffices because each step consumes
at least one character when `pat` is non-empty. -/
def replaceAllFuel (pat rep : List Char) : Nat → List Char → List Char
  | _, [] => []
  | 0, s => s
  | Nat.succ n, c :: rest =>
    if pat.isPrefixOf (c :: rest) then
      rep ++ replaceAllFuel pat rep n (List.drop pat.length (c :: rest))
    else
      c :: replaceAllFuel pat rep n rest

/-- Python's `s.replace(pat, rep)` on strings (all occurrences, left to
right, non-overlapping). -/
def replaceAll (s pat rep : String) : String :=
  ⟨replaceAllFuel pat.data rep.data s.data.length s.data⟩

/-- The predicted-path rewrite performed by both audio handlers
(`src/app.py` lines 70 and 97):
`prepare_filename(info).replace('.webm', '.mp3').replace('.m4a', '.mp3')`. -/
def rewriteAudio (p : String) : String :=
  replaceAll (replaceAll p ".webm" ".mp3") ".m4a" ".mp3"

/-- Helper for `basename`: accumulate the current path component in reverse,
resetting at every `/`. -/
def basenameGo : List Char → List Char → List Char
  | acc, [] => acc.reverse
  | acc, c :: rest => if c = '/' then basenameGo [] rest else basenameGo (c :: acc) rest

/-- `os.path.basename` on a POSIX path: the part after the last `/`. -/
def basename (p : String) : String :=
  ⟨basenameGo [] p.data⟩

/-- `pat` occurs as a contiguous sublist of `s`. -/
def hasOcc (pat : List Char) : List Char → Bool
  | [] => pat.isPrefixOf []
  | c :: rest => pat.isPrefixOf (c :: rest) || hasOcc pat rest

/-- In `t ++ pat`, no occurrence of `pat` starts strictly before position
`t.length`: scanning `t ++ pat` left to right first matches `pat` at the very
end.  Stated recursively on `t` for easy induction. -/
def noEarlierOcc (pat : List Char) : List Char → Bool
  | [] => true
  | c :: rest => !pat.isPrefixOf ((c :: rest) ++ pat) && noEarlierOcc pat rest

/-- `s` ends with the suffix `suf`. -/
def endsWithL (s suf : List Char) : Bool :=
  decide (suf.length ≤ s.length) && suf.isPrefixOf (s.drop (s.length - suf.length))

/-- Modelled from the spec: the post-processing step of the external
extraction engine (out of scope of `src/`, consumed as a black box) — "an
intermediate container extension is replaced by the final transcoded
extension for AUDIO".  For a predicted path ending in the intermediate
container extensions `.webm` or `.m4a`, the file actually produced on disk
has that terminal extension replaced by `.mp3`. -/
def actualAudioOutput (p : String) : String :=
  if endsWithL p.data ".webm".data then
    ⟨p.data.take (p.data.length - 5) ++ ".mp3".data⟩
  else if endsWithL p.data ".m4a".data then
    ⟨p.data.take (p.data.length - 4) ++ ".mp3".data⟩
  else p

/-- The request body of the POST endpoints (`class DownloadRequest`). -/
structure DownloadRequest where
  url : String
  deriving DecidableEq

/-- One entry of the `postprocessors` list of a yt-dlp option dictionary. -/
structure AudioPostProcessor where
  key : String
  preferredcodec : String
  preferredquality : String
  deriving DecidableEq

/-- The yt-dlp option dictionary as assembled by the handlers: the shared
`BASE_YDL_OPTS` keys plus the per-route `format`, `postprocessors` and
`merge_output_format` keys. -/
structure YdlOpts where
  cookiefile : String
  quiet : Bool
  no_warnings : Bool
  outtmpl : String
  format : String
  postprocessors : List AudioPostProcessor
  merge_output_format : Option String
  deriving DecidableEq

/-- Options built by `download_song_post` (lines 56-64): `BASE_YDL_OPTS`
merged with the audio format selector and the `FFmpegExtractAudio`
post-processor. -/
def songPostOpts (_request : DownloadRequest) : YdlOpts :=
  { cookiefile := "cookies.txt", quiet := true, no_warnings := true,
    outtmpl := "downloads/%(title)s.%(ext)s",
    format := "bestaudio/best",
    postprocessors := [{ key := "FFmpegExtractAudio", preferredcodec := "mp3",
                         preferredquality := "192" }],
    merge_output_format := none }

/-- Options built by `download_song_get` (lines 83-91). -/
def songGetOpts (_url : String) : YdlOpts :=
  { cookiefile := "cookies.txt", quiet := true, no_warnings := true,
    outtmpl := "downloads/%(title)s.%(ext)s",
    format := "bestaudio/best",
    postprocessors := [{ key := "FFmpegExtractAudio", preferredcodec := "mp3",
                         preferredquality := "192" }],
    merge_output_format := none }

/-- Options built by `download_video_post` (lines 114-118). -/
def videoPostOpts (_request : DownloadRequest) : YdlOpts :=
  { cookiefile := "cookies.txt", quiet := true, no_warnings := true,
    outtmpl := "downloads/%(title)s.%(ext)s",
    format := "bestvideo[ext=mp4]+bestaudio[ext=m4a]/best[ext=mp4]/best",
    postprocessors := [],
    merge_output_format := some "mp4" }

/-- Options built by `download_video_get` (lines 137-141). -/
def videoGetOpts (_url : String) : YdlOpts :=
  { cookiefile := "cookies.txt", quiet := true, no_warnings := true,
    outtmpl := "downloads/%(title)s.%(ext)s",
    format := "bestvideo[ext=mp4]+bestaudio[ext=m4a]/best[ext=mp4]/best",
    postprocessors := [],
    merge_output_format := some "mp4" }

/-- The shared storage directory: a finite map from paths to byte sizes,
as an association list. -/
abbrev Fs := List (String × Nat)

/-- The failure classes of the external engine named by the spec's taxonomy
(the engine raises arbitrary exceptions; the class records which taxonomy
bucket the underlying condition belongs to, the message is what `str(e)`
yields). -/
inductive EngineErrorClass
  | invalidSource
  | noMatchingFormat
  | transcodeFailed
  | storageUnavailable
  deriving DecidableEq

/-- An exception raised by the external engine. -/
structure EngineError where
  cls : EngineErrorClass
  msg : String
  deriving DecidableEq

/-- Result of `ydl.extract_info(url, download=True)` followed by
`ydl.prepare_filename(info)`: either the predicted output path, or a raised
exception. -/
inductive EngineOutcome
  | ok (predicted : String)
  | err (e : EngineError)
  deriving DecidableEq

/-- The external engine as an oracle: it consumes the URL and the option
dictionary, transforms the filesystem (the download writes into the storage
directory), and yields its outcome. -/
abbrev Engine := String → YdlOpts → Fs → EngineOutcome × Fs

/-- `os.path.exists` on the modelled filesystem. -/
def fsExists (fs : Fs) (p : String) : Bool :=
  fs.any (fun kv => kv.1 == p)

/-- `os.path.getsize` on the modelled filesystem (in bytes). -/
def fsSize (fs : Fs) (p : String) : Nat :=
  ((fs.find? (fun kv => kv.1 == p)).map Prod.snd).getD 0

/-- The GET handlers' size computation
`os.path.getsize(filename) / (1024 * 1024)` (lines 99 and 149).  Python's
`/` is exact division; it is modelled in `ℚ` (the IEEE double it produces is
exact for every realistic size, and the comparison against `50` agrees with
the rational one for all sizes). -/
def fileSizeMB (size : Nat) : ℚ :=
  (size : ℚ) / (1024 * 1024)

/-- An exception alive inside a handler's `try` block: either an
`HTTPException(status_code, detail)` raised by the handler itself, or an
exception propagating out of the engine. -/
inductive PyExn
  | http (status : Nat) (detail : String)
  | engine (e : EngineError)
  deriving DecidableEq

/-- Python's `str(e)` for the exceptions a handler can catch: starlette's
`HTTPException.__str__` yields `"{status_code}: {detail}"`, and an engine
error yields its message. -/
def strOfExn : PyExn → String
  | .http status detail => toString status ++ ": " ++ detail
  | .engine e => e.msg

/-- The client-visible outcome of a handler: a `FileResponse` with its path,
`media_type` and `filename` arguments, or an error response with its HTTP
status and detail message. -/
inductive HandlerResult
  | file (path : String) (mediaType : String) (filename : String)
  | error (status : Nat) (detail : String)
  deriving DecidableEq

/-- The status of a 4xx client error. -/
def isClientError (status : Nat) : Bool :=
  decide (400 ≤ status) && decide (status < 500)

/-- The `try` block of `download_song_post` (lines 66-75): call the engine,
rewrite the predicted path, check existence; on success the resolved path,
otherwise the raised exception. -/
def songPostBody (engine : Engine) (fs : Fs) (request : DownloadRequest) :
    Except PyExn String × Fs :=
  match engine request.url (songPostOpts request) fs with
  | (.err e, fs') => (.error (.engine e), fs')
  | (.ok predicted, fs') =>
    let filename := rewriteAudio predicted
    if fsExists fs' filename then (.ok filename, fs')
    else (.error (.http 500 "File not found after download"), fs')

/-- `download_song_post` (lines 54-78): the `try` body, with every escaping
exception converted by the `except Exception` clause into
`HTTPException(500, str(e))`; on success the
`FileResponse(filename, media_type='audio/mpeg',
filename=os.path.basename(filename))` of line 73. -/
def songPostRun (engine : Engine) (fs : Fs) (request : DownloadRequest) :
    HandlerResult × Fs :=
  match songPostBody engine fs request with
  | (.ok filename, fs') => (.file filename "audio/mpeg" (basename filename), fs')
  | (.error e, fs') => (.error 500 (strOfExn e), fs')

/-- The `try` block of `download_song_get` (lines 93-106), including the
size gate of lines 99-102 which raises `HTTPException(413, ...)` inside the
`try`. -/
def songGetBody (engine : Engine) (fs : Fs) (url : String) :
    Except PyExn String × Fs :=
  match engine url (songGetOpts url) fs with
  | (.err e, fs') => (.error (.engine e), fs')
  | (.ok predicted, fs') =>
    let filename := rewriteAudio predicted
    if fsExists fs' filename then
      if fileSizeMB (fsSize fs' filename) > 50 then
        (.error (.http 413 "File too large for direct download (>50MB)"), fs')
      else (.ok filename, fs')
    else (.error (.http 500 "File not found after download"), fs')

/-- `download_song_get` (lines 81-109): the `try` body wrapped by the
`except Exception` clause re-raising `HTTPException(500, str(e))`. -/
def songGetRun (engine : Engine) (fs : Fs) (url : String) :
    HandlerResult × Fs :=
  match songGetBody engine fs url with
  | (.ok filename, fs') => (.file filename "audio/mpeg" (basename filename), fs')
  | (.error e, fs') => (.error 500 (strOfExn e), fs')

/-- The `try` block of `download_video_post` (lines 120-129): no extension
rewrite is applied to the predicted path. -/
def videoPostBody (engine : Engine) (fs : Fs) (request : DownloadRequest) :
    Except PyExn String × Fs :=
  match engine request.url (videoPostOpts request) fs with
  | (.err e, fs') => (.error (.engine e), fs')
  | (.ok predicted, fs') =>
    let filename := predicted
    if fsExists fs' filename then (.ok filename, fs')
    else (.error (.http 500 "File not found after download"), fs')

/-- `download_video_post` (lines 112-132). -/
def videoPostRun (engine : Engine) (fs : Fs) (request : DownloadRequest) :
    HandlerResult × Fs :=
  match videoPostBody engine fs request with
  | (.ok filename, fs') => (.file filename "video/mp4" (basename filename), fs')
  | (.error e, fs') => (.error 500 (strOfExn e), fs')

/-- The `try` block of `download_video_get` (lines 143-156), including the
size gate of lines 149-152. -/
def videoGetBody (engine : Engine) (fs : Fs) (url : String) :
    Except PyExn String × Fs :=
  match engine url (videoGetOpts url) fs with
  | (.err e, fs') => (.error (.engine e), fs')
  | (.ok predicted, fs') =>
    let filename := predicted
    if fsExists fs' filename then
      if fileSizeMB (fsSize fs' filename) > 50 then
        (.error (.http 413 "File too large for direct download (>50MB)"), fs')
      else (.ok filename, fs')
    else (.error (.http 500 "File not found after download"), fs')

/-- `download_video_get` (lines 135-159). -/
def videoGetRun (engine : Engine) (fs : Fs) (url : String) :
    HandlerResult × Fs :=
  match videoGetBody engine fs url with
  | (.ok filename, fs') => (.file filename "video/mp4" (basename filename), fs')
  | (.error e, fs') => (.error 500 (strOfExn e), fs')

/-- The `/song` GET entry point including the framework's parameter
handling: `url: str = Query(...)` makes the parameter required, so a request
missing it entirely is rejected by FastAPI's validation with a 422 response
before the handler runs; any present string (including the empty string)
reaches the handler. -/
def songGetEntry (engine : Engine) (fs : Fs) (urlParam : Option String) :
    HandlerResult × Fs :=
  match urlParam with
  | none => (.error 422 "Field required", fs)
  | some url => songGetRun engine fs url

/-- The `/song` POST entry point including the framework's body validation:
a body missing the required `url` field is rejected with a 422 response
before the handler runs; any present string (including the empty string)
reaches the handler. -/
def songPostEntry (engine : Engine) (fs : Fs) (body : Option DownloadRequest) :
    HandlerResult × Fs :=
  match body with
  | none => (.error 422 "Field required", fs)
  | some request => songPostRun engine fs request

/-- The four routes of the service. -/
inductive Route
  | songPost
  | songGet
  | videoPost
  | videoGet
  deriving DecidableEq

/-- Dispatch a request to the route's handler (the POST routes wrap the URL
into a `DownloadRequest` body). -/
def routeRun : Route → Engine → Fs → String → HandlerResult × Fs
  | .songPost, engine, fs, url => songPostRun engine fs { url := url }
  | .songGet, engine, fs, url => songGetRun engine fs url
  | .videoPost, engine, fs, url => videoPostRun engine fs { url := url }
  | .videoGet, engine, fs, url => videoGetRun engine fs url

/-- The option dictionary a route's handler passes to the engine. -/
def routeOpts : Route → String → YdlOpts
  | .songPost, url => songPostOpts { url := url }
  | .songGet, url => songGetOpts url
  | .videoPost, url => videoPostOpts { url := url }
  | .videoGet, url => videoGetOpts url

/-- The `media_type` argument fixed by each route's `FileResponse` call. -/
def routeMediaType : Route → String
  | .songPost => "audio/mpeg"
  | .songGet => "audio/mpeg"
  | .videoPost => "video/mp4"
  | .videoGet => "video/mp4"

/-- Whether the route is DIRECT mode (browser-facing GET, size-gated). -/
def isDirect : Route → Bool
  | .songPost => false
  | .songGet => true
  | .videoPost => false
  | .videoGet => true

/-- The path a route's handler checks for existence, given the engine's
predicted path: the audio routes rewrite `.webm`/`.m4a` to `.mp3`, the video
routes use the prediction unchanged. -/
def routeResolve : Route → String → String
  | .songPost, p => rewriteAudio p
  | .songGet, p => rewriteAudio p
  | .videoPost, p => p
  | .videoGet, p => p

/-- One directory entry of the storage directory, as seen by
`os.listdir("downloads")`: its name and whether the joined path is a regular
file (`os.path.isfile`). -/
structure DirEntry where
  name : String
  isFile : Bool
  deriving DecidableEq

/-- The shutdown cleanup of `lifespan` (lines 29-38): iterate over the
directory entries; for each regular file call `os.remove` on the joined
path.  The single `try`/`except` wraps the whole loop, so the first removal
that raises aborts the iteration (the `except` clause only logs, so shutdown
itself still completes); subdirectories are skipped and the loop continues.
`removeFails` is the oracle telling which `os.remove` calls raise.  The
result is the list of entries remaining in the directory. -/
def shutdownCleanup (removeFails : String → Bool) : List DirEntry → List DirEntry
  | [] => []
  | e :: rest =>
    if e.isFile then
      if removeFails ("downloads/" ++ e.name) then e :: rest
      else shutdownCleanup removeFails rest
    else e :: shutdownCleanup removeFails rest

/-! ### Helper lemmas about the string machinery -/

theorem isPrefixOf_append_self (l t : List Char) : l.isPrefixOf (l ++ t) = true := by
  rw [List.isPrefixOf_iff_prefix]
  exact List.prefix_append l t

theorem isPrefixOf_self (l : List Char) : l.isPrefixOf l = true := by
  have h := isPrefixOf_append_self l []
  rwa [List.append_nil] at h

theorem replaceAllFuel_nil (pat rep : List Char) (n : Nat) :
    replaceAllFuel pat rep n [] = [] := by
  cases n <;> rfl

theorem replaceAllFuel_no_occ (pat rep : List Char) :
    ∀ (s : List Char) (n : Nat), hasOcc pat s = false → replaceAllFuel pat rep n s = s
  | [], n, _ => replaceAllFuel_nil pat rep n
  | _ :: _, 0, _ => rfl
  | c :: rest, Nat.succ n, h => by
    simp only [hasOcc, Bool.or_eq_false_iff] at h
    simp only [replaceAllFuel, h.1, if_false, Bool.false_eq_true,
      replaceAllFuel_no_occ pat rep rest n h.2]

theorem replaceAllFuel_append_pat (pat rep : List Char) (hp : pat ≠ []) :
    ∀ (t : List Char) (n : Nat), t.length < n → noEarlierOcc pat t = true →
      replaceAllFuel pat rep n (t ++ pat) = t ++ rep
  | [], 0, hn, _ => absurd hn (by simp)
  | [], Nat.succ n, _, _ => by
    match pat, hp with
    | p :: ps, _ =>
      simp only [List.nil_append]
      simp only [replaceAllFuel, isPrefixOf_self, if_true]
      rw [List.drop_length, replaceAllFuel_nil, List.append_nil]
  | c :: rest, 0, hn, _ => absurd hn (by simp)
  | c :: rest, Nat.succ n, hn, h => by
    simp only [noEarlierOcc, Bool.and_eq_true, Bool.not_eq_true'] at h
    have h1 : pat.isPrefixOf (c :: (rest ++ pat)) = false := by
      simpa using h.1
    simp only [List.cons_append, replaceAllFuel, List.append_eq, h1, Bool.false_eq_true,
      if_false, List.cons.injEq, true_and]
    exact replaceAllFuel_append_pat pat rep hp rest n (Nat.lt_of_succ_lt_succ hn) h.2

theorem hasOcc_of_isPrefixOf_drop (pat : List Char) :
    ∀ (s : List Char) (i : Nat), pat.isPrefixOf (s.drop i) = true → hasOcc pat s = true
  | [], _, h => by simpa [hasOcc] using h
  | c :: rest, 0, h => by
    rw [List.drop_zero] at h
    simp only [hasOcc, h, Bool.true_or]
  | c :: rest, Nat.succ i, h => by
    rw [List.drop_succ_cons] at h
    simp [hasOcc, hasOcc_of_isPrefixOf_drop pat rest i h]

theorem endsWithL_false_of_no_occ (pat s : List Char) (h : hasOcc pat s = false) :
    endsWithL s pat = false := by
  cases hE : endsWithL s pat
  · rfl
  · exfalso
    have h2 : pat.isPrefixOf (s.drop (s.length - pat.length)) = true := by
      simp only [endsWithL, Bool.and_eq_true, decide_eq_true_eq] at hE
      exact hE.2
    have h3 := hasOcc_of_isPrefixOf_drop pat s _ h2
    rw [h] at h3
    exact Bool.false_ne_true h3

theorem endsWithL_append (t pat : List Char) : endsWithL (t ++ pat) pat = true := by
  unfold endsWithL
  have hdrop : (t ++ pat).drop ((t ++ pat).length - pat.length) = pat := by
    rw [List.length_append, Nat.add_sub_cancel]
    exact List.drop_left t pat
  rw [hdrop]
  simp [isPrefixOf_self]

theorem replaceAll_no_occ (s pat rep : String) (h : hasOcc pat.data s.data = false) :
    replaceAll s pat rep = s := by
  apply String.ext
  show replaceAllFuel pat.data rep.data s.data.length s.data = s.data
  exact replaceAllFuel_no_occ pat.data rep.data s.data s.data.length h

theorem replaceAll_append_pat (t pat rep : String) (hp : pat.data ≠ [])
    (h : noEarlierOcc pat.data t.data = true) :
    replaceAll (t ++ pat) pat rep = t ++ rep := by
  apply String.ext
  show replaceAllFuel pat.data rep.data (t ++ pat).data.length (t ++ pat).data =
    (t ++ rep).data
  rw [String.data_append, String.data_append]
  apply replaceAllFuel_append_pat pat.data rep.data hp
  · rw [List.length_append]
    have hpos : 0 < pat.data.length := List.length_pos.mpr hp
    omega
  · exact h

theorem rewriteAudio_append_webm (t : String)
    (h1 : noEarlierOcc ".webm".data t.data = true)
    (h2 : hasOcc ".m4a".data (t.data ++ ".mp3".data) = false) :
    rewriteAudio (t ++ ".webm") = t ++ ".mp3" := by
  unfold rewriteAudio
  rw [replaceAll_append_pat t ".webm" ".mp3" (by decide) h1]
  apply replaceAll_no_occ
  rw [String.data_append]
  exact h2

theorem rewriteAudio_append_m4a (t : String)
    (h1 : hasOcc ".webm".data (t.data ++ ".m4a".data) = false)
    (h2 : noEarlierOcc ".m4a".data t.data = true) :
    rewriteAudio (t ++ ".m4a") = t ++ ".mp3" := by
  unfold rewriteAudio
  have hw : hasOcc ".webm".data (t ++ ".m4a").data = false := by
    rw [String.data_append]; exact h1
  rw [replaceAll_no_occ _ _ _ hw]
  exact replaceAll_append_pat t ".m4a" ".mp3" (by decide) h2

theorem actualAudioOutput_append_webm (t : String) :
    actualAudioOutput (t ++ ".webm") = t ++ ".mp3" := by
  have hd : (t ++ ".webm").data = t.data ++ ".webm".data := String.data_append t ".webm"
  have he : endsWithL (t ++ ".webm").data ".webm".data = true := by
    rw [hd]; exact endsWithL_append t.data ".webm".data
  unfold actualAudioOutput
  rw [if_pos he]
  apply String.ext
  show (t ++ ".webm").data.take ((t ++ ".webm").data.length - 5) ++ ".mp3".data =
    (t ++ ".mp3").data
  rw [hd, String.data_append, List.length_append]
  have h5 : ".webm".data.length = 5 := rfl
  rw [h5, Nat.add_sub_cancel, List.take_left]

theorem actualAudioOutput_append_m4a (t : String)
    (hw : hasOcc ".webm".data (t.data ++ ".m4a".data) = false) :
    actualAudioOutput (t ++ ".m4a") = t ++ ".mp3" := by
  have hd : (t ++ ".m4a").data = t.data ++ ".m4a".data := String.data_append t ".m4a"
  have hnw : endsWithL (t ++ ".m4a").data ".webm".data = false := by
    rw [hd]; exact endsWithL_false_of_no_occ _ _ hw
  have he : endsWithL (t ++ ".m4a").data ".m4a".data = true := by
    rw [hd]; exact endsWithL_append t.data ".m4a".data
  unfold actualAudioOutput
  rw [if_neg (by rw [hnw]; exact Bool.false_ne_true), if_pos he]
  apply String.ext
  show (t ++ ".m4a").data.take ((t ++ ".m4a").data.length - 4) ++ ".mp3".data =
    (t ++ ".mp3").data
  rw [hd, String.data_append, List.length_append]
  have h4 : ".m4a".data.length = 4 := rfl
  rw [h4, Nat.add_sub_cancel, List.take_left]

/-- The GET handlers' megabyte comparison agrees with the exact byte
threshold: `size / (1024*1024) > 50` in exact arithmetic holds iff
`size > 52428800`. -/
theorem fileSizeMB_gt_iff (size : Nat) : fileSizeMB size > 50 ↔ 52428800 < size := by
  unfold fileSizeMB
  rw [gt_iff_lt, lt_div_iff₀ (by norm_num : (0:ℚ) < 1024 * 1024)]
  rw [show ((50:ℚ) * (1024 * 1024)) = ((52428800 : ℕ) : ℚ) by norm_num, Nat.cast_lt]

/-! ### Claim theorems -/

/-- Claim C1: the claim states that a DIRECT-mode (GET) request whose
artifact exceeds `max_direct_bytes` yields the distinguished 413 status to
the client rather than the generic 500.  In the code the
`raise HTTPException(413, ...)` of the size gate sits inside the `try`
block, and the blanket `except Exception as e` clause catches it and
re-raises `HTTPException(500, str(e))`: at a concrete oversized input (a
60 MiB artifact) the `try` body does produce the 413 exception, but the
client-visible response carries status 500.  The explicit 413 raise shows
the claim matches the code's intent; the catch-all re-raise defeats it. -/
theorem oversized_get_status_eval :
    songGetBody (fun _ _ _ => (.ok "downloads/big.webm", [("downloads/big.mp3", 62914560)]))
        [] "u" =
      (.error (.http 413 "File too large for direct download (>50MB)"),
        [("downloads/big.mp3", 62914560)]) ∧
    songGetRun (fun _ _ _ => (.ok "downloads/big.webm", [("downloads/big.mp3", 62914560)]))
        [] "u" =
      (.error 500 (strOfExn (.http 413 "File too large for direct download (>50MB)")),
        [("downloads/big.mp3", 62914560)]) := by
  have hgate : fileSizeMB (fsSize [("downloads/big.mp3", 62914560)]
      (rewriteAudio "downloads/big.webm")) > 50 := by
    rw [fileSizeMB_gt_iff]
    decide
  have hex : fsExists [("downloads/big.mp3", 62914560)]
      (rewriteAudio "downloads/big.webm") = true := by decide
  constructor
  · simp only [songGetBody]
    rw [if_pos hex, if_pos hgate]
  · simp only [songGetRun, songGetBody]
    rw [if_pos hex, if_pos hgate]

/-- Claim C2 counterexample: a present but empty `url` passes validation
and reaches the retrieval engine — two engines that differ only in their
outcome give different responses to the same empty-url request — and the
resulting failure is the generic 500, not a client-error issued before
retrieval. -/
theorem empty_url_reaches_engine_cex :
    songGetEntry (fun _ _ fs => (.err ⟨.invalidSource, "Unsupported URL"⟩, fs)) [] (some "") =
      (.error 500 "Unsupported URL", []) ∧
    isClientError 500 = false ∧
    songGetEntry (fun _ _ fs => (.err ⟨.invalidSource, "Unsupported URL"⟩, fs)) [] (some "") ≠
      songGetEntry (fun _ _ fs => (.ok "downloads/x.mp3", fs)) [] (some "") := by
  refine ⟨rfl, rfl, ?_⟩
  decide

/-- Claim C2 (amended): only a request missing the `url` parameter entirely
is rejected before any retrieval attempt, by framework validation (status
422, independent of the engine); a present `url` string — the empty string
included — is handed to the handler, which invokes the engine, and an
engine failure then surfaces as the generic 500. -/
theorem url_validation_amended (engine engine2 : Engine) (fs : Fs) :
    songGetEntry engine fs none = (.error 422 "Field required", fs) ∧
    songGetEntry engine fs none = songGetEntry engine2 fs none ∧
    (∀ url, songGetEntry engine fs (some url) = songGetRun engine fs url) ∧
    songPostEntry engine fs none = (.error 422 "Field required", fs) ∧
    (∀ request, songPostEntry engine fs (some request) = songPostRun engine fs request) :=
  ⟨rfl, rfl, fun _ => rfl, rfl, fun _ => rfl⟩

/-- Claim C3 counterexample: an engine failure of class `InvalidSource` is
not converted to a client-error status — the handler's `except` clause maps
it, like every other engine failure, to the generic server error 500. -/
theorem engine_failure_class_cex :
    routeRun .songPost (fun _ _ fs => (.err ⟨.invalidSource, "Unsupported URL: xyz"⟩, fs))
        [] "xyz" =
      (.error 500 "Unsupported URL: xyz", []) ∧
    isClientError 500 = false :=
  ⟨rfl, rfl⟩

/-- Claim C3 (amended): every engine failure, of every class, is caught and
converted to the generic status 500 carrying the exception's message — so
no raw engine exception reaches the caller, but the failure classes are not
distinguished: `InvalidSource` and `NoMatchingFormat` also surface as the
server error 500. -/
theorem engine_failure_conversion_amended (r : Route) (engine : Engine) (fs fs' : Fs)
    (url : String) (e : EngineError)
    (h : engine url (routeOpts r url) fs = (.err e, fs')) :
    routeRun r engine fs url = (.error 500 e.msg, fs') := by
  cases r <;>
    simp only [routeRun, routeOpts, songPostRun, songPostBody, songGetRun, songGetBody,
      videoPostRun, videoPostBody, videoGetRun, videoGetBody] at h ⊢ <;>
    rw [h] <;> rfl

/-- Witness for C3 (amended) at a concrete input. -/
theorem engine_failure_conversion_amended_witness :
    routeRun .songGet
        (fun _ _ fs => (.err ⟨.noMatchingFormat, "Requested format is not available"⟩, fs))
        [] "u" =
      (.error 500 "Requested format is not available", []) :=
  engine_failure_conversion_amended .songGet
    (fun _ _ fs => (.err ⟨.noMatchingFormat, "Requested format is not available"⟩, fs))
    [] [] "u" ⟨.noMatchingFormat, "Requested format is not available"⟩ rfl

/-- Claim C4 counterexample: with two regular files where removing the
first raises, the second file — whose removal would succeed — is not
purged: the single `try` wrapping the whole loop aborts the iteration at
the first failure instead of continuing with the remaining files. -/
theorem shutdown_purge_abort_cex :
    shutdownCleanup (fun p => p == "downloads/stuck.mp3")
        [⟨"stuck.mp3", true⟩, ⟨"next.mp3", true⟩] =
      [⟨"stuck.mp3", true⟩, ⟨"next.mp3", true⟩] ∧
    (fun p => p == "downloads/stuck.mp3") "downloads/next.mp3" = false :=
  ⟨by decide, by decide⟩

/-- Claim C4 (amended): when no removal raises, the shutdown purge removes
every regular file directly inside the storage directory, skips
subdirectories, and is a no-op on an already-empty directory; it never
fails the shutdown path (the cleanup is total, the `except` clause only
logs).  However, a single removal failure aborts the purge of the remaining
entries (see the counterexample). -/
theorem shutdown_purge_amended (removeFails : String → Bool) (entries : List DirEntry)
    (h : ∀ e ∈ entries, removeFails ("downloads/" ++ e.name) = false) :
    shutdownCleanup removeFails entries = entries.filter (fun e => !e.isFile) := by
  induction entries with
  | nil => rfl
  | cons e rest ih =>
    have he : removeFails ("downloads/" ++ e.name) = false := h e (by simp)
    have hrest : ∀ x ∈ rest, removeFails ("downloads/" ++ x.name) = false :=
      fun x hx => h x (by simp [hx])
    cases hf : e.isFile with
    | false =>
      simp only [shutdownCleanup, hf, Bool.false_eq_true, if_false, List.filter_cons,
        Bool.not_false, if_true, ih hrest]
    | true =>
      simp only [shutdownCleanup, hf, if_true, he, Bool.false_eq_true, if_false,
        List.filter_cons, Bool.not_true, ih hrest]

/-- Witness for C4 (amended) at a concrete input: a directory with two
regular files and a subdirectory, no removal failing. -/
theorem shutdown_purge_amended_witness :
    shutdownCleanup (fun _ => false)
        [⟨"a.mp3", true⟩, ⟨"sub", false⟩, ⟨"b.mp4", true⟩] = [⟨"sub", false⟩] ∧
    shutdownCleanup (fun _ => false) [] = [] := by
  constructor
  · have h := shutdown_purge_amended (fun _ => false)
      [⟨"a.mp3", true⟩, ⟨"sub", false⟩, ⟨"b.mp4", true⟩] (fun _ _ => rfl)
    rw [h]
    decide
  · have h := shutdown_purge_amended (fun _ => false) [] (fun _ h => absurd h (by simp))
    rw [h]
    decide

/-- Claim C5 counterexample: the engine predicts `downloads/a.webm.webm`
(which ends in `.webm`); per the spec's description of post-processing the
produced file is `downloads/a.webm.mp3`, which exists on disk — yet the
handler's rewrite replaces every occurrence, checks `downloads/a.mp3.mp3`,
and the request fails with the generic 500 despite the artifact being
present. -/
theorem resolve_stale_prediction_cex :
    songPostRun (fun _ _ _ => (.ok "downloads/a.webm.webm", [("downloads/a.webm.mp3", 1000)]))
        [] { url := "u" } =
      (.error 500 (strOfExn (.http 500 "File not found after download")),
        [("downloads/a.webm.mp3", 1000)]) ∧
    actualAudioOutput "downloads/a.webm.webm" = "downloads/a.webm.mp3" ∧
    fsExists [("downloads/a.webm.mp3", 1000)]
      (actualAudioOutput "downloads/a.webm.webm") = true := by
  refine ⟨?_, by decide, by decide⟩
  simp only [songPostRun, songPostBody]
  rw [if_neg (by decide :
    ¬ fsExists [("downloads/a.webm.mp3", 1000)] (rewriteAudio "downloads/a.webm.webm") = true)]

/-- Claim C5 (amended): for every audio request — `/song` POST and `/song`
GET alike — whose predicted path ends in `.webm` or `.m4a`, *provided the
terminal extension is the only occurrence of the rewritten substrings in
the path*, the handler's rewrite coincides with the post-processed output
path (terminal extension replaced by `.mp3`) and the existence check finds
the `.mp3` artifact; the POST request then succeeds, and the GET request
succeeds provided the artifact also passes the DIRECT-mode size gate
(at most 52428800 bytes).  (Without the only-occurrence proviso the claim
fails, see the counterexample.) -/
theorem resolve_rewrite_amended :
    (∀ (engine : Engine) (fs fs' : Fs) (request : DownloadRequest) (t : String),
      engine request.url (songPostOpts request) fs = (.ok (t ++ ".webm"), fs') →
      noEarlierOcc ".webm".data t.data = true →
      hasOcc ".m4a".data (t.data ++ ".mp3".data) = false →
      fsExists fs' (t ++ ".mp3") = true →
      songPostRun engine fs request =
        (.file (t ++ ".mp3") "audio/mpeg" (basename (t ++ ".mp3")), fs') ∧
      rewriteAudio (t ++ ".webm") = t ++ ".mp3" ∧
      actualAudioOutput (t ++ ".webm") = t ++ ".mp3") ∧
    (∀ (engine : Engine) (fs fs' : Fs) (request : DownloadRequest) (t : String),
      engine request.url (songPostOpts request) fs = (.ok (t ++ ".m4a"), fs') →
      hasOcc ".webm".data (t.data ++ ".m4a".data) = false →
      noEarlierOcc ".m4a".data t.data = true →
      fsExists fs' (t ++ ".mp3") = true →
      songPostRun engine fs request =
        (.file (t ++ ".mp3") "audio/mpeg" (basename (t ++ ".mp3")), fs') ∧
      rewriteAudio (t ++ ".m4a") = t ++ ".mp3" ∧
      actualAudioOutput (t ++ ".m4a") = t ++ ".mp3") ∧
    (∀ (engine : Engine) (fs fs' : Fs) (url t : String),
      engine url (songGetOpts url) fs = (.ok (t ++ ".webm"), fs') →
      noEarlierOcc ".webm".data t.data = true →
      hasOcc ".m4a".data (t.data ++ ".mp3".data) = false →
      fsExists fs' (t ++ ".mp3") = true →
      fsSize fs' (t ++ ".mp3") ≤ 52428800 →
      songGetRun engine fs url =
        (.file (t ++ ".mp3") "audio/mpeg" (basename (t ++ ".mp3")), fs')) ∧
    (∀ (engine : Engine) (fs fs' : Fs) (url t : String),
      engine url (songGetOpts url) fs = (.ok (t ++ ".m4a"), fs') →
      hasOcc ".webm".data (t.data ++ ".m4a".data) = false →
      noEarlierOcc ".m4a".data t.data = true →
      fsExists fs' (t ++ ".mp3") = true →
      fsSize fs' (t ++ ".mp3") ≤ 52428800 →
      songGetRun engine fs url =
        (.file (t ++ ".mp3") "audio/mpeg" (basename (t ++ ".mp3")), fs')) := by
  refine ⟨?_, ?_, ?_, ?_⟩
  · intro engine fs fs' request t he h1 h2 hx
    have hrw : rewriteAudio (t ++ ".webm") = t ++ ".mp3" := rewriteAudio_append_webm t h1 h2
    refine ⟨?_, hrw, actualAudioOutput_append_webm t⟩
    simp only [songPostRun, songPostBody, he, hrw]
    rw [if_pos hx]
  · intro engine fs fs' request t he h1 h2 hx
    have hrw : rewriteAudio (t ++ ".m4a") = t ++ ".mp3" := rewriteAudio_append_m4a t h1 h2
    refine ⟨?_, hrw, actualAudioOutput_append_m4a t h1⟩
    simp only [songPostRun, songPostBody, he, hrw]
    rw [if_pos hx]
  · intro engine fs fs' url t he h1 h2 hx hsize
    have hrw : rewriteAudio (t ++ ".webm") = t ++ ".mp3" := rewriteAudio_append_webm t h1 h2
    have hgate : ¬ fileSizeMB (fsSize fs' (t ++ ".mp3")) > 50 := by
      rw [fileSizeMB_gt_iff]
      omega
    simp only [songGetRun, songGetBody, he, hrw]
    rw [if_pos hx, if_neg hgate]
  · intro engine fs fs' url t he h1 h2 hx hsize
    have hrw : rewriteAudio (t ++ ".m4a") = t ++ ".mp3" := rewriteAudio_append_m4a t h1 h2
    have hgate : ¬ fileSizeMB (fsSize fs' (t ++ ".mp3")) > 50 := by
      rw [fileSizeMB_gt_iff]
      omega
    simp only [songGetRun, songGetBody, he, hrw]
    rw [if_pos hx, if_neg hgate]

/-- Witness for C5 (amended), exercising all four components at concrete
inputs: predicted `downloads/title.webm` (respectively
`downloads/song.m4a`), post-processed `.mp3` of 1000 bytes on disk, on
both the POST and the GET route. -/
theorem resolve_rewrite_amended_witness :
    (songPostRun (fun _ _ _ => (.ok "downloads/title.webm", [("downloads/title.mp3", 1000)]))
        [] { url := "u" } =
      (.file ("downloads/title" ++ ".mp3") "audio/mpeg"
        (basename ("downloads/title" ++ ".mp3")), [("downloads/title.mp3", 1000)])) ∧
    rewriteAudio ("downloads/title" ++ ".webm") = "downloads/title" ++ ".mp3" ∧
    actualAudioOutput ("downloads/title" ++ ".webm") = "downloads/title" ++ ".mp3" ∧
    (songPostRun (fun _ _ _ => (.ok "downloads/song.m4a", [("downloads/song.mp3", 1000)]))
        [] { url := "u" } =
      (.file ("downloads/song" ++ ".mp3") "audio/mpeg"
        (basename ("downloads/song" ++ ".mp3")), [("downloads/song.mp3", 1000)])) ∧
    (songGetRun (fun _ _ _ => (.ok "downloads/title.webm", [("downloads/title.mp3", 1000)]))
        [] "u" =
      (.file ("downloads/title" ++ ".mp3") "audio/mpeg"
        (basename ("downloads/title" ++ ".mp3")), [("downloads/title.mp3", 1000)])) ∧
    (songGetRun (fun _ _ _ => (.ok "downloads/song.m4a", [("downloads/song.mp3", 1000)]))
        [] "u" =
      (.file ("downloads/song" ++ ".mp3") "audio/mpeg"
        (basename ("downloads/song" ++ ".mp3")), [("downloads/song.mp3", 1000)])) := by
  have h1 := resolve_rewrite_amended.1
    (fun _ _ _ => (.ok "downloads/title.webm", [("downloads/title.mp3", 1000)]))
    [] [("downloads/title.mp3", 1000)] { url := "u" } "downloads/title"
    (by decide) (by decide) (by decide) (by decide)
  have h2 := resolve_rewrite_amended.2.1
    (fun _ _ _ => (.ok "downloads/song.m4a", [("downloads/song.mp3", 1000)]))
    [] [("downloads/song.mp3", 1000)] { url := "u" } "downloads/song"
    (by decide) (by decide) (by decide) (by decide)
  have h3 := resolve_rewrite_amended.2.2.1
    (fun _ _ _ => (.ok "downloads/title.webm", [("downloads/title.mp3", 1000)]))
    [] [("downloads/title.mp3", 1000)] "u" "downloads/title"
    (by decide) (by decide) (by decide) (by decide) (by decide)
  have h4 := resolve_rewrite_amended.2.2.2
    (fun _ _ _ => (.ok "downloads/song.m4a", [("downloads/song.mp3", 1000)]))
    [] [("downloads/song.mp3", 1000)] "u" "downloads/song"
    (by decide) (by decide) (by decide) (by decide) (by decide)
  exact ⟨h1.1, h1.2.1, h1.2.2, h2.1, h3, h4⟩

/-- Claim C6: on a DIRECT-mode (GET) route, when the artifact produced by
the engine exceeds 52428800 bytes, the failing request performs no
deletion: the handler returns the filesystem exactly as the engine left it,
and the artifact is still present afterwards (available for a subsequent
programmatic fetch or cleanup). -/
theorem oversized_direct_no_delete (r : Route) (engine : Engine) (fs fs' : Fs)
    (url predicted : String)
    (hd : isDirect r = true)
    (he : engine url (routeOpts r url) fs = (.ok predicted, fs'))
    (hx : fsExists fs' (routeResolve r predicted) = true)
    (hs : 52428800 < fsSize fs' (routeResolve r predicted)) :
    routeRun r engine fs url =
      (.error 500 (strOfExn (.http 413 "File too large for direct download (>50MB)")), fs') ∧
    fsExists (routeRun r engine fs url).2 (routeResolve r predicted) = true := by
  have hgate := (fileSizeMB_gt_iff _).mpr hs
  cases r with
  | songPost => exact absurd hd (by simp [isDirect])
  | videoPost => exact absurd hd (by simp [isDirect])
  | songGet =>
    simp only [routeOpts] at he
    simp only [routeResolve] at hx hgate
    have h1 : routeRun Route.songGet engine fs url =
        (.error 500 (strOfExn (.http 413 "File too large for direct download (>50MB)")), fs') := by
      simp only [routeRun, songGetRun, songGetBody, he]
      rw [if_pos hx, if_pos hgate]
    refine ⟨h1, ?_⟩
    rw [h1]
    exact hx
  | videoGet =>
    simp only [routeOpts] at he
    simp only [routeResolve] at hx hgate
    have h1 : routeRun Route.videoGet engine fs url =
        (.error 500 (strOfExn (.http 413 "File too large for direct download (>50MB)")), fs') := by
      simp only [routeRun, videoGetRun, videoGetBody, he]
      rw [if_pos hx, if_pos hgate]
    refine ⟨h1, ?_⟩
    rw [h1]
    exact hx

/-- Witness for C6 at a concrete input: a 70 MiB video artifact on the
`/video` GET route. -/
theorem oversized_direct_no_delete_witness :
    routeRun .videoGet (fun _ _ _ => (.ok "downloads/huge.mp4", [("downloads/huge.mp4", 73400320)]))
        [] "u" =
      (.error 500 (strOfExn (.http 413 "File too large for direct download (>50MB)")),
        [("downloads/huge.mp4", 73400320)]) ∧
    fsExists (routeRun .videoGet
        (fun _ _ _ => (.ok "downloads/huge.mp4", [("downloads/huge.mp4", 73400320)])) [] "u").2
      (routeResolve .videoGet "downloads/huge.mp4") = true :=
  oversized_direct_no_delete .videoGet
    (fun _ _ _ => (.ok "downloads/huge.mp4", [("downloads/huge.mp4", 73400320)]))
    [] [("downloads/huge.mp4", 73400320)] "u" "downloads/huge.mp4"
    rfl rfl (by decide) (by decide)

/-- Claim C7: every successful response carries the media type fixed by the
route (`audio/mpeg` for the song routes, `video/mp4` for the video routes)
and a client-facing filename equal to the basename of the resolved artifact
path. -/
theorem success_response_tagging (r : Route) (engine : Engine) (fs : Fs)
    (url p mt fn : String)
    (h : (routeRun r engine fs url).1 = .file p mt fn) :
    mt = routeMediaType r ∧ fn = basename p := by
  cases r with
  | songPost =>
    simp only [routeRun, songPostRun] at h
    rcases hb : songPostBody engine fs { url := url } with ⟨res, fs2⟩
    rw [hb] at h
    cases res with
    | ok filename =>
      simp only [HandlerResult.file.injEq] at h
      exact ⟨h.2.1.symm, by rw [← h.2.2, h.1]⟩
    | error e => simp at h
  | songGet =>
    simp only [routeRun, songGetRun] at h
    rcases hb : songGetBody engine fs url with ⟨res, fs2⟩
    rw [hb] at h
    cases res with
    | ok filename =>
      simp only [HandlerResult.file.injEq] at h
      exact ⟨h.2.1.symm, by rw [← h.2.2, h.1]⟩
    | error e => simp at h
  | videoPost =>
    simp only [routeRun, videoPostRun] at h
    rcases hb : videoPostBody engine fs { url := url } with ⟨res, fs2⟩
    rw [hb] at h
    cases res with
    | ok filename =>
      simp only [HandlerResult.file.injEq] at h
      exact ⟨h.2.1.symm, by rw [← h.2.2, h.1]⟩
    | error e => simp at h
  | videoGet =>
    simp only [routeRun, videoGetRun] at h
    rcases hb : videoGetBody engine fs url with ⟨res, fs2⟩
    rw [hb] at h
    cases res with
    | ok filename =>
      simp only [HandlerResult.file.injEq] at h
      exact ⟨h.2.1.symm, by rw [← h.2.2, h.1]⟩
    | error e => simp at h

/-- Witness for C7 at a concrete successful request on the `/video` POST
route. -/
theorem success_response_tagging_witness :
    "video/mp4" = routeMediaType .videoPost ∧
    "t.mp4" = basename "downloads/t.mp4" :=
  success_response_tagging .videoPost
    (fun _ _ _ => (.ok "downloads/t.mp4", [("downloads/t.mp4", 100)]))
    [] "u" "downloads/t.mp4" "video/mp4" "t.mp4" (by decide)

/-- Claim C8: the DIRECT-mode size gate triggers iff the artifact strictly
exceeds 50 MiB: the handlers' megabyte computation
`size / (1024 * 1024) > 50` (exact division) is equivalent to the integer
threshold `size > 52428800`; an artifact of exactly 52428800 bytes is
served, and one of 52428801 bytes is gated. -/
theorem size_gate_threshold :
    (∀ size : Nat, fileSizeMB size > 50 ↔ 52428800 < size) ∧
    songGetRun (fun _ _ _ => (.ok "downloads/edge.webm", [("downloads/edge.mp3", 52428800)]))
        [] "u" =
      (.file "downloads/edge.mp3" "audio/mpeg" "edge.mp3", [("downloads/edge.mp3", 52428800)]) ∧
    videoGetRun (fun _ _ _ => (.ok "downloads/edge.mp4", [("downloads/edge.mp4", 52428801)]))
        [] "u" =
      (.error 500 (strOfExn (.http 413 "File too large for direct download (>50MB)")),
        [("downloads/edge.mp4", 52428801)]) := by
  refine ⟨fileSizeMB_gt_iff, ?_, ?_⟩
  · have hgate : ¬ fileSizeMB (fsSize [("downloads/edge.mp3", 52428800)]
        (rewriteAudio "downloads/edge.webm")) > 50 := by
      rw [fileSizeMB_gt_iff]
      decide
    simp only [songGetRun, songGetBody]
    rw [if_pos (by decide : fsExists [("downloads/edge.mp3", 52428800)]
      (rewriteAudio "downloads/edge.webm") = true), if_neg hgate]
    decide
  · have hgate : fileSizeMB (fsSize [("downloads/edge.mp4", 52428801)]
        "downloads/edge.mp4") > 50 := by
      rw [fileSizeMB_gt_iff]
      decide
    simp only [videoGetRun, videoGetBody]
    rw [if_pos (by decide : fsExists [("downloads/edge.mp4", 52428801)]
      "downloads/edge.mp4" = true), if_pos hgate]

/-- Claim C9: the extraction options built by the POST handler of each
MediaKind equal those built by the GET handler of the same kind, and
neither depends on the request's url or body. -/
theorem format_policy_uniform (request request2 : DownloadRequest) (url url2 : String) :
    songPostOpts request = songGetOpts url ∧
    videoPostOpts request = videoGetOpts url ∧
    songGetOpts url = songGetOpts url2 ∧
    videoGetOpts url = videoGetOpts url2 ∧
    songPostOpts request = songPostOpts request2 ∧
    videoPostOpts request = videoPostOpts request2 :=
  ⟨rfl, rfl, rfl, rfl, rfl, rfl⟩

/-- Claim C10: the audio predicted-path rewrite replaces every occurrence
of `.webm` and `.m4a` anywhere in the path, not only a terminal extension:
on `downloads/a.webm.clip.webm` every occurrence is replaced, and the path
checked for existence differs from the actual post-processed filename
(terminal extension replaced), so the lookup can diverge. -/
theorem rewrite_replaces_every_occurrence :
    rewriteAudio "downloads/a.webm.clip.webm" = "downloads/a.mp3.clip.mp3" ∧
    actualAudioOutput "downloads/a.webm.clip.webm" = "downloads/a.webm.clip.mp3" ∧
    rewriteAudio "downloads/a.webm.clip.webm" ≠ actualAudioOutput "downloads/a.webm.clip.webm" ∧
    rewriteAudio "downloads/b.m4a.live.m4a" = "downloads/b.mp3.live.mp3" := by
  refine ⟨by decide, by decide, by decide, by decide⟩

end Pydl
